import Mathlib

/-!
Verification of the ESPN score-scraper's query-interpretation core
(src/sports_scraper.py) against its specification.  The Python functions
are shallowly embedded below: strings are lists of characters, the wall
clock is abstracted by the `DateR` type (the scraper only ever produces
"now", "now ± 1 day", or an absolute parsed date), and fuel-structured
recursion mirrors the scanning loops of `str.replace`, `str.split` and
`re.search`; a fuel of `length + 1` always suffices because every step
consumes at least one character.
-/

namespace ESPN

/-- Python whitespace (the ASCII characters `str.strip` and `\s` treat as
space: space, tab, newline, carriage return, vertical tab, form feed). -/
def isPySpace (c : Char) : Bool :=
  decide (c.toNat = 32 ∨ c.toNat = 9 ∨ c.toNat = 10 ∨ c.toNat = 13 ∨ c.toNat = 11 ∨ c.toNat = 12)

/-- ASCII lower-casing of one character (`str.lower` on the scraper's input). -/
def lcChar (c : Char) : Char :=
  if 65 ≤ c.toNat ∧ c.toNat ≤ 90 then Char.ofNat (c.toNat + 32) else c

/-- ASCII upper-casing of one character (`str.upper`). -/
def ucChar (c : Char) : Char :=
  if 97 ≤ c.toNat ∧ c.toNat ≤ 122 then Char.ofNat (c.toNat - 32) else c

def lowerL (l : List Char) : List Char := l.map lcChar

def upperL (l : List Char) : List Char := l.map ucChar

/-- `str.strip()`: drop leading and trailing whitespace. -/
def pyStrip (l : List Char) : List Char :=
  ((l.dropWhile isPySpace).reverse.dropWhile isPySpace).reverse

/-- Does the second list start with the first? -/
def isPrefixL : List Char → List Char → Bool
  | [], _ => true
  | _ :: _, [] => false
  | p :: ps, c :: cs => if p = c then isPrefixL ps cs else false

/-- Python `pat in text`: substring containment. -/
def isSubstr (pat : List Char) : List Char → Bool
  | [] => pat.isEmpty
  | c :: cs => isPrefixL pat (c :: cs) || isSubstr pat cs

/-- `str.replace(pat, repl)`: replace every occurrence, scanning left to
right, never rescanning replaced text.  Only used with non-empty `pat`. -/
def replGo (pat repl : List Char) : Nat → List Char → List Char
  | 0, l => l
  | _ + 1, [] => []
  | f + 1, c :: cs =>
    if isPrefixL pat (c :: cs) then
      repl ++ replGo pat repl f (List.drop (pat.length - 1) cs)
    else
      c :: replGo pat repl f cs

def pyReplace (pat repl l : List Char) : List Char := replGo pat repl (l.length + 1) l

/-- `str.split(sep)` for non-empty `sep`: fields between the left-to-right
non-overlapping occurrences of the separator. -/
def splitGo (sep : List Char) : Nat → List Char → List Char → List (List Char)
  | 0, l, acc => [acc.reverse ++ l]
  | _ + 1, [], acc => [acc.reverse]
  | f + 1, c :: cs, acc =>
    if isPrefixL sep (c :: cs) then
      acc.reverse :: splitGo sep f (List.drop (sep.length - 1) cs) []
    else
      splitGo sep f cs (c :: acc)

def pySplit (sep l : List Char) : List (List Char) := splitGo sep (l.length + 1) l []

def isDigitC (c : Char) : Bool := decide (48 ≤ c.toNat ∧ c.toNat ≤ 57)

def digitsToNat (l : List Char) : Nat := l.foldl (fun n c => n * 10 + (c.toNat - 48)) 0

/-- Calendar dates the scraper can produce: the three relative tokens are
resolved against the injected wall clock, the two absolute formats carry
the fields parsed out of the text. -/
inductive DateR where
  | today
  | yesterday
  | tomorrow
  | mmddyy (m d y : Nat)
  | iso (y m d : Nat)
deriving DecidableEq

def isLeap (y : Nat) : Bool := decide ((y % 4 = 0 ∧ y % 100 ≠ 0) ∨ y % 400 = 0)

def monthLen (y m : Nat) : Nat :=
  if m = 2 then (if isLeap y then 29 else 28)
  else if m = 4 ∨ m = 6 ∨ m = 9 ∨ m = 11 then 30
  else 31

/-- `strptime` `%y` pivot: 00-68 map to 2000-2068, 69-99 to 1969-1999. -/
def fullYear (y : Nat) : Nat := if y ≤ 68 then 2000 + y else 1900 + y

def mmOf (ds : List Char) : Nat := digitsToNat (ds.take 2)

def ddOf (ds : List Char) : Nat := digitsToNat ((ds.drop 2).take 2)

def yyOf (ds : List Char) : Nat := digitsToNat (ds.drop 4)

/-- Whether `datetime.strptime(ds, "%m%d%y")` succeeds on a 6-digit run. -/
def validMMDDYY (ds : List Char) : Bool :=
  decide (1 ≤ mmOf ds ∧ mmOf ds ≤ 12 ∧ 1 ≤ ddOf ds ∧
    ddOf ds ≤ monthLen (fullYear (yyOf ds)) (mmOf ds))

def mmddyyOf (ds : List Char) : DateR := DateR.mmddyy (mmOf ds) (ddOf ds) (yyOf ds)

/-- Whether `datetime.strptime(_, "%Y-%m-%d")` succeeds on the matched fields. -/
def validYMD (y m d : Nat) : Bool :=
  decide (1 ≤ y ∧ y ≤ 9999 ∧ 1 ≤ m ∧ m ≤ 12 ∧ 1 ≤ d ∧ d ≤ monthLen y m)

/-- `re.search(r'(\d{6})', _)`: the six digits at the first position where six
consecutive digits start. -/
def firstRun6 : List Char → Option (List Char)
  | [] => none
  | c :: cs =>
    if ((c :: cs).take 6).length = 6 ∧ ((c :: cs).take 6).all isDigitC then
      some ((c :: cs).take 6)
    else firstRun6 cs

/-- `re.search(r'week\s*(\d{1,2})', _)`: scan for the literal "week", then
greedy whitespace, then one or two digits (greedy). -/
def weekSearch : List Char → Option Nat
  | [] => none
  | c :: cs =>
    if isPrefixL ("week".data) (c :: cs) then
      let ds := ((((c :: cs).drop 4).dropWhile isPySpace).takeWhile isDigitC).take 2
      if ds.isEmpty then weekSearch cs else some (digitsToNat ds)
    else weekSearch cs

/-- One attempt of `r'(\d{4})-(\d{2})-(\d{2})'` anchored at the head. -/
def isoAt (l : List Char) : Option (Nat × Nat × Nat) :=
  if (l.take 4).length = 4 ∧ (l.take 4).all isDigitC then
    match l.drop 4 with
    | '-' :: r2 =>
      if (r2.take 2).length = 2 ∧ (r2.take 2).all isDigitC then
        match r2.drop 2 with
        | '-' :: r3 =>
          if (r3.take 2).length = 2 ∧ (r3.take 2).all isDigitC then
            some (digitsToNat (l.take 4), digitsToNat (r2.take 2), digitsToNat (r3.take 2))
          else none
        | _ => none
      else none
    | _ => none
  else none

/-- `re.search(r'(\d{4})-(\d{2})-(\d{2})', _)`: first position that matches. -/
def isoSearch : List Char → Option (Nat × Nat × Nat)
  | [] => none
  | c :: cs =>
    match isoAt (c :: cs) with
    | some r => some r
    | none => isoSearch cs

/-!
difflib.SequenceMatcher(None, a, b).ratio(), embedded exactly: the b2j index
with its autojunk purge, the find_longest_match dynamic program with its
tie-breaking, the non-junk extension loops (the junk loops are inert since
`SequenceMatcher(None, _, _)` has an empty junk set), and the recursive
block decomposition of get_matching_blocks, whose sizes ratio() sums.
-/

/-- Ascending indices of `c` in `b` (b2j), with the popular entries dropped
when autojunk triggers (b of length at least 200). -/
def b2jIdx (b : List Char) (c : Char) : List Nat :=
  let idxs := (List.range b.length).filter (fun j => decide (b.getD j ' ' = c))
  if b.length ≥ 200 ∧ b.length / 100 + 1 < idxs.length then [] else idxs

def lookupJ (l : List (Nat × Nat)) (j : Nat) : Nat :=
  match l.find? (fun p => decide (p.1 = j)) with
  | some p => p.2
  | none => 0

/-- Inner loop of find_longest_match over the b-indices of one a-character;
`j2len` is the previous row of the dynamic program. -/
def flmInner (j2len : List (Nat × Nat)) (i blo bhi : Nat) :
    List Nat → List (Nat × Nat) × Nat × Nat × Nat → List (Nat × Nat) × Nat × Nat × Nat
  | [], st => st
  | j :: js, (acc, bi, bj, bs) =>
    if j < blo then flmInner j2len i blo bhi js (acc, bi, bj, bs)
    else if bhi ≤ j then (acc, bi, bj, bs)
    else
      let k := (if j = 0 then 0 else lookupJ j2len (j - 1)) + 1
      if bs < k then flmInner j2len i blo bhi js ((j, k) :: acc, i + 1 - k, j + 1 - k, k)
      else flmInner j2len i blo bhi js ((j, k) :: acc, bi, bj, bs)

/-- Outer loop of find_longest_match over i in [alo, ahi). -/
def flmOuter (a b : List Char) (blo bhi : Nat) :
    List Nat → List (Nat × Nat) × Nat × Nat × Nat → List (Nat × Nat) × Nat × Nat × Nat
  | [], st => st
  | i :: ii, (j2len, bi, bj, bs) =>
    flmOuter a b blo bhi ii (flmInner j2len i blo bhi (b2jIdx b (a.getD i ' ')) ([], bi, bj, bs))

/-- First extension loop: extend the best block downward over equal
(non-junk) characters. Fuel `bi + 1` suffices: `bi` decreases each step. -/
def extendLow (a b : List Char) (alo blo : Nat) : Nat → Nat × Nat × Nat → Nat × Nat × Nat
  | 0, st => st
  | f + 1, (bi, bj, bs) =>
    if alo < bi ∧ blo < bj ∧ a.getD (bi - 1) ' ' = b.getD (bj - 1) ' ' then
      extendLow a b alo blo f (bi - 1, bj - 1, bs + 1)
    else (bi, bj, bs)

/-- Second extension loop: extend the best block upward. Fuel `ahi + 1`
suffices: `bi + bs` grows toward `ahi` each step. -/
def extendHigh (a b : List Char) (ahi bhi : Nat) : Nat → Nat × Nat × Nat → Nat × Nat × Nat
  | 0, st => st
  | f + 1, (bi, bj, bs) =>
    if bi + bs < ahi ∧ bj + bs < bhi ∧ a.getD (bi + bs) ' ' = b.getD (bj + bs) ' ' then
      extendHigh a b ahi bhi f (bi, bj, bs + 1)
    else (bi, bj, bs)

/-- SequenceMatcher.find_longest_match on a[alo:ahi] × b[blo:bhi]. -/
def findLongestMatch (a b : List Char) (alo ahi blo bhi : Nat) : Nat × Nat × Nat :=
  let st := flmOuter a b blo bhi ((List.range ahi).drop alo) ([], alo, blo, 0)
  extendHigh a b ahi bhi (ahi + 1) (extendLow a b alo blo (st.2.1 + 1) st.2)

/-- Sum of the matching block sizes of get_matching_blocks, by the recursive
decomposition around each longest match (the queue order and the collapsing
of adjacent blocks do not change the sum). Each recursive call shrinks the
interval measure, so fuel `|a| + |b| + 1` suffices. -/
def matchSumGo (a b : List Char) : Nat → Nat → Nat → Nat → Nat → Nat
  | 0, _, _, _, _ => 0
  | f + 1, alo, ahi, blo, bhi =>
    let r := findLongestMatch a b alo ahi blo bhi
    if r.2.2 = 0 then 0
    else
      matchSumGo a b f alo r.1 blo r.2.1 + r.2.2 +
        matchSumGo a b f (r.1 + r.2.2) ahi (r.2.1 + r.2.2) bhi

def matchSum (a b : List Char) : Nat :=
  matchSumGo a b (a.length + b.length + 1) 0 a.length 0 b.length

/-- `ratio() > 0.6` decided exactly: `2M/T > 0.6` iff `10M > 3T` (for the
string lengths a machine can hold, the float comparison agrees with the
rational one); difflib defines the ratio of two empty strings as 1.0. -/
def ratioGtPoint6 (a b : List Char) : Bool :=
  if a.length + b.length = 0 then true
  else decide (3 * (a.length + b.length) < 10 * matchSum a b)

/-- `fuzzy_match(n1, n2) > 0.6` (lines 219-223): the scraper lower-cases and
strips both names, then compares the SequenceMatcher ratio to 0.6. -/
def fuzzyGt (n1 n2 : List Char) : Bool :=
  ratioGtPoint6 (pyStrip (lowerL n1)) (pyStrip (lowerL n2))

/-! The parsers. -/

def APISkeys : List String := ["nba", "nfl", "nhl", "ncaab", "ncaaf"]

structure ParsedQuery where
  league : Option String
  week : Option Nat
  date : Option DateR
deriving DecidableEq

/-- Python truthiness of the optional week number: None and 0 are falsy. -/
def optNatTruthy : Option Nat → Bool
  | none => false
  | some n => decide (n ≠ 0)

/-- The YYYY-MM-DD arm of parse_query's date extraction (lines 72-79). -/
def isoDate (q : List Char) : Option DateR :=
  match isoSearch q with
  | some (y, m, d) => if validYMD y m d then some (DateR.iso y m d) else none
  | none => none

/-- Date extraction of parse_query (lines 56-79): relative tokens first,
then the first 6-digit run as MMDDYY, then YYYY-MM-DD; a numeric run that
is not a valid date is discarded and resolution continues. -/
def queryDate (q : List Char) : Option DateR :=
  if isSubstr "today".data q then some DateR.today
  else if isSubstr "yesterday".data q then some DateR.yesterday
  else if isSubstr "tomorrow".data q then some DateR.tomorrow
  else
    match firstRun6 q with
    | some ds => if validMMDDYY ds then some (mmddyyOf ds) else isoDate q
    | none => isoDate q

/-- parse_query (lines 38-85): league by first key contained in the text,
week by regex, date as above, defaulting to now when both date and week
are falsy. -/
def parse_query (q0 : String) : ParsedQuery :=
  let q := pyStrip (lowerL q0.data)
  let week := weekSearch q
  let date := queryDate q
  { league := APISkeys.find? (fun lg => isSubstr lg.data q)
    week := week
    date := if date.isNone && !optNatTruthy week then some DateR.today else date }

structure MultiQuery where
  leagues : List String
  date : DateR
deriving DecidableEq

/-- Date extraction shared by parse_multi_league_query and the interactive
"all sports" branch: relative tokens, then MMDDYY; no ISO form here. -/
def simpleDate (q : List Char) : Option DateR :=
  if isSubstr "today".data q then some DateR.today
  else if isSubstr "yesterday".data q then some DateR.yesterday
  else if isSubstr "tomorrow".data q then some DateR.tomorrow
  else
    match firstRun6 q with
    | some ds => if validMMDDYY ds then some (mmddyyOf ds) else none
    | none => none

/-- The text parse_multi_league_query works on (lines 257-260): lower-cased,
stripped, with every occurrence of "score" removed, stripped again. -/
def multiClean (l : List Char) : List Char :=
  pyStrip (pyReplace "score".data [] (pyStrip (lowerL l)))

/-- parse_multi_league_query (lines 255-289): date from the cleaned text
with a "now" default, leagues collected by scanning the fixed key set in
its declared order. -/
def parse_multi_league_query (q0 : String) : MultiQuery :=
  let q := multiClean q0.data
  { leagues := APISkeys.filter (fun lg => isSubstr lg.data q)
    date := (simpleDate q).getD DateR.today }

structure TeamQuery where
  team1 : String
  team2 : Option String
  date : DateR
deriving DecidableEq

/-- Date step of parse_team_query (lines 296-319): the recognized token (or
the valid 6-digit run) is also deleted from the text; an invalid 6-digit
run is left in place. -/
def teamDateStrip (q : List Char) : Option DateR × List Char :=
  if isSubstr "today".data q then (some DateR.today, pyReplace "today".data [] q)
  else if isSubstr "yesterday".data q then (some DateR.yesterday, pyReplace "yesterday".data [] q)
  else if isSubstr "tomorrow".data q then (some DateR.tomorrow, pyReplace "tomorrow".data [] q)
  else
    match firstRun6 q with
    | some ds => if validMMDDYY ds then (some (mmddyyOf ds), pyReplace ds [] q) else (none, q)
    | none => (none, q)

/-- The text parse_team_query splits (after date and "score" removal). -/
def teamClean (q0 : String) : List Char :=
  pyStrip (pyReplace "score".data [] (teamDateStrip (pyStrip (lowerL q0.data))).2)

def teamDate (q0 : String) : DateR :=
  ((teamDateStrip (pyStrip (lowerL q0.data))).1).getD DateR.today

/-- The split arm of parse_team_query: parts[0] stripped, parts[1] stripped
when there is more than one part. -/
def teamSplit (sep q3 : List Char) (date : DateR) : TeamQuery :=
  match pySplit sep q3 with
  | t1 :: t2 :: _ => { team1 := ⟨pyStrip t1⟩, team2 := some ⟨pyStrip t2⟩, date := date }
  | [t1] => { team1 := ⟨pyStrip t1⟩, team2 := none, date := date }
  | [] => { team1 := "", team2 := none, date := date }

/-- parse_team_query (lines 292-337). -/
def parse_team_query (q0 : String) : TeamQuery :=
  let q3 := teamClean q0
  let date := teamDate q0
  if isSubstr " vs ".data q3 then teamSplit " vs ".data q3 date
  else if isSubstr " v ".data q3 then teamSplit " v ".data q3 date
  else { team1 := ⟨pyStrip q3⟩, team2 := none, date := date }

inductive FetchParams where
  | byWeek (w : Nat)
  | byDate (d : DateR)
  | byToday
deriving DecidableEq

/-- Request-parameter selection of fetch_games for one league (lines
102-109): a truthy week wins for nfl/ncaaf, else a dates parameter from the
given date or from now. -/
def fetchParams (lg : String) (week : Option Nat) (date : Option DateR) : FetchParams :=
  if optNatTruthy week ∧ (lg = "nfl" ∨ lg = "ncaaf") then FetchParams.byWeek (week.getD 0)
  else
    match date with
    | some d => FetchParams.byDate d
    | none => FetchParams.byToday

/-- Which leagues fetch_games iterates over (line 93), with Python
truthiness: a falsy league means all of them. -/
def fetchLeagues (league : Option String) : List String :=
  match league with
  | some lg => if lg.data.isEmpty then APISkeys else [lg]
  | none => APISkeys

inductive IAction where
  | skip
  | quitA
  | helpA
  | allSports (d : DateR)
  | teamQ (t : TeamQuery)
  | multiQ (m : MultiQuery)
  | unknown
deriving DecidableEq

/-- One dispatch turn of interactive_mode (lines 399-509) on a line of
input: strip, lower, exit and help commands, the "all sports"/"all score"
shortcut, the team separator check, the multi-league parse with its
positive-evidence requirement, else an unknown-command rejection. -/
def interactiveStep (input : String) : IAction :=
  let ui := pyStrip input.data
  if ui.isEmpty then IAction.skip
  else
    let cmd := lowerL ui
    if cmd = "quit".data ∨ cmd = "exit".data ∨ cmd = "q".data then IAction.quitA
    else if cmd = "help".data then IAction.helpA
    else if isSubstr "all sports".data cmd || isSubstr "all score".data cmd then
      IAction.allSports ((simpleDate cmd).getD DateR.today)
    else if isSubstr " vs ".data cmd || isSubstr " v ".data cmd then
      IAction.teamQ (parse_team_query ⟨ui⟩)
    else
      let parsed := parse_multi_league_query ⟨ui⟩
      if parsed.leagues.isEmpty then IAction.unknown else IAction.multiQ parsed

/-! The team matcher and find_team_game. -/

/-- A normalized game record as consumed by find_team_game, print_games and
save_to_csv (the dict built by parse_game). -/
structure Game where
  league : String
  home : String
  away : String
  score : String
  status : String
  date : String
deriving DecidableEq

/-- The per-side acceptance check of find_team_game for a fragment that was
already lower-cased and stripped, against a lower-cased candidate:
containment or fuzzy_match above 0.6 (lines 237-239). -/
def acceptsFrag (t cand : List Char) : Bool :=
  isSubstr t cand || fuzzyGt t cand

/-- The Team Matcher: does fragment `f` identify candidate team name `c`?
This composes find_team_game's normalization of the fragment with its
per-side check. -/
def accepts (f c : String) : Bool :=
  acceptsFrag (pyStrip (lowerL f.data)) (lowerL c.data)

/-- The claim's acceptance rule as stated: the lower-cased fragment
contained in the lower-cased candidate, or the ratio of the lower-cased and
trimmed pair above 0.6.  Kept for comparison against `accepts`. -/
def specAccepts (f c : String) : Bool :=
  isSubstr (lowerL f.data) (lowerL c.data) ||
    ratioGtPoint6 (pyStrip (lowerL f.data)) (pyStrip (lowerL c.data))

/-- The amended acceptance rule: as `specAccepts` but with the fragment also
trimmed before the substring test, which is what the code does. -/
def specAcceptsAmended (f c : String) : Bool :=
  isSubstr (pyStrip (lowerL f.data)) (lowerL c.data) ||
    ratioGtPoint6 (pyStrip (lowerL f.data)) (pyStrip (lowerL c.data))

/-- The loop body test of find_team_game (lines 232-250) for normalized
team fragments: team1 must match home or away; a present team2 must match
home or away of the same record. -/
def gamePred (t1 : List Char) (t2 : Option (List Char)) (g : Game) : Bool :=
  let home := lowerL g.home.data
  let away := lowerL g.away.data
  (isSubstr t1 home || isSubstr t1 away || fuzzyGt t1 home || fuzzyGt t1 away) &&
    (match t2 with
     | some t => isSubstr t home || isSubstr t away || fuzzyGt t home || fuzzyGt t away
     | none => true)

/-- find_team_game (lines 226-252).  team2 is re-bound to its normalized
form, so a falsy (absent or empty) team2, and also one that normalizes to
the empty string, skips the second check via Python truthiness. -/
def find_team_game (games : List Game) (team1 : String) (team2 : Option String) : List Game :=
  let t1 := pyStrip (lowerL team1.data)
  let t2 := match team2 with
    | some s => if s.data.isEmpty then none else some (pyStrip (lowerL s.data))
    | none => none
  games.filter (gamePred t1 t2)

/-- The per-record predicate claim C3 states, phrased with the Team
Matcher's `accepts` on the raw strings. -/
def claimPred (team1 : String) (team2 : Option String) (g : Game) : Bool :=
  (accepts team1 g.home || accepts team1 g.away) &&
    (match team2 with
     | some t => accepts t g.home || accepts t g.away
     | none => true)

/-! parse_game (lines 126-177), on typed upstream payloads. -/

structure Competitor where
  displayName : Option String
  name : Option String
  score : Option String
  homeAway : Option String
deriving DecidableEq

structure Competition where
  competitors : List Competitor
deriving DecidableEq

/-- An upstream event.  A missing "competitions" key behaves like an empty
list here: Python substitutes `[{}]` whose only element has no competitors,
and an empty list raises IndexError which the surrounding try swallows; in
both cases parse_game returns nothing, which `head? = none` captures.  The
status name models the get-chain `status.type.name` with its "Unknown"
default applied on use. -/
structure Event where
  competitions : List Competition
  statusName : Option String
  date : Option String
deriving DecidableEq

/-- Record parsed per game: home or away can be missing when neither
competitor carries the corresponding homeAway tag. -/
structure PGame where
  league : String
  home : Option String
  away : Option String
  score : String
  status : String
  date : String
deriving DecidableEq

def competitorName (c : Competitor) : String :=
  c.displayName.getD (c.name.getD "Unknown")

/-- The competitor loop of parse_game (lines 138-148), later entries
overwriting earlier ones on the same side. -/
def collectTeams (cs : List Competitor) : Option String × Option String × String × String :=
  cs.foldl
    (fun st c =>
      if c.homeAway = some "home" then (some (competitorName c), st.2.1, c.score.getD "0", st.2.2.2)
      else (st.1, some (competitorName c), st.2.2.1, c.score.getD "0"))
    (none, none, "0", "0")

def statusFromName (n : String) : String :=
  if n = "STATUS_FINAL" then "Final"
  else if n = "STATUS_IN_PROGRESS" then "Live"
  else "Scheduled"

def takeStr (n : Nat) (s : String) : String := ⟨s.data.take n⟩

/-- parse_game: nothing unless the first competition exists and has exactly
two competitors; otherwise the record with the mapped status, the
"away-home" score string for Final and Live and "-" otherwise, the
upper-cased league and the first ten characters of the event date. -/
def parse_game (e : Event) (league : String) : Option PGame :=
  match e.competitions.head? with
  | none => none
  | some comp =>
    if comp.competitors.length = 2 then
      let r := collectTeams comp.competitors
      let st := statusFromName ((e.statusName).getD "Unknown")
      some
        { league := ⟨upperL league.data⟩
          home := r.1
          away := r.2.1
          score :=
            if st = "Final" then r.2.2.2 ++ "-" ++ r.2.2.1
            else if st = "Live" then r.2.2.2 ++ "-" ++ r.2.2.1
            else "-"
          status := st
          date := takeStr 10 ((e.date).getD "") }
    else none

/-! save_to_csv (lines 180-202), on an explicit file state: `none` is an
absent file, `some rows` a present file whose rows are field lists. -/

def csvHeader : List String := ["date", "league", "home", "away", "score", "status"]

def gameRow (g : Game) : List String := [g.date, g.league, g.home, g.away, g.score, g.status]

/-- save_to_csv: a no-op on an empty game list; otherwise open in append
mode (creating the file), write the header only when the file did not yet
exist, then one row per game in order. -/
def save_to_csv (games : List Game) (file : Option (List (List String))) :
    Option (List (List String)) :=
  if games.isEmpty then file
  else
    match file with
    | none => some (csvHeader :: games.map gameRow)
    | some rows => some (rows ++ games.map gameRow)

/-! Concrete data used by witnesses. -/

def compFinal : Competition :=
  ⟨[⟨some "Boston Celtics", none, some "98", some "away"⟩,
    ⟨some "Los Angeles Lakers", none, some "100", some "home"⟩]⟩

def eFinal : Event := ⟨[compFinal], some "STATUS_FINAL", some "2024-01-15T00:00Z"⟩

def gameW : Game :=
  ⟨"NBA", "Los Angeles Lakers", "Boston Celtics", "98-100", "Final", "2024-01-15"⟩

/-! Helper lemmas. -/

theorem toNat_charOfNat (n : Nat) (h : n.isValidChar) : (Char.ofNat n).toNat = n := by
  unfold Char.ofNat
  rw [dif_pos h]
  rfl

theorem lcChar_idem (c : Char) : lcChar (lcChar c) = lcChar c := by
  unfold lcChar
  by_cases h : 65 ≤ c.toNat ∧ c.toNat ≤ 90
  · rw [if_pos h]
    have ht : (Char.ofNat (c.toNat + 32)).toNat = c.toNat + 32 :=
      toNat_charOfNat _ (Or.inl (by omega))
    rw [if_neg]
    rw [ht]
    omega
  · rw [if_neg h, if_neg h]

theorem isPySpace_lcChar (c : Char) : isPySpace (lcChar c) = isPySpace c := by
  unfold lcChar
  by_cases h : 65 ≤ c.toNat ∧ c.toNat ≤ 90
  · rw [if_pos h]
    have ht : (Char.ofNat (c.toNat + 32)).toNat = c.toNat + 32 :=
      toNat_charOfNat _ (Or.inl (by omega))
    unfold isPySpace
    rw [ht, decide_eq_decide]
    omega
  · rw [if_neg h]

theorem dropWhile_self_idem (p : Char → Bool) (l : List Char) :
    (l.dropWhile p).dropWhile p = l.dropWhile p := by
  induction l with
  | nil => rfl
  | cons c cs ih =>
    by_cases h : p c = true
    · rw [List.dropWhile_cons, if_pos h]
      exact ih
    · rw [List.dropWhile_cons, if_neg h, List.dropWhile_cons, if_neg h]

theorem dropWhile_head_false (p : Char → Bool) :
    ∀ (l : List Char) c cs, l.dropWhile p = c :: cs → p c = false := by
  intro l
  induction l with
  | nil => intro c cs h; simp [List.dropWhile] at h
  | cons a as ih =>
    intro c cs h
    by_cases ha : p a = true
    · rw [List.dropWhile_cons, if_pos ha] at h
      exact ih c cs h
    · rw [List.dropWhile_cons, if_neg ha] at h
      cases h
      simpa using ha

theorem dropWhile_eq_append (p : Char → Bool) (l : List Char) :
    ∃ t, l = t ++ l.dropWhile p := by
  induction l with
  | nil => exact ⟨[], rfl⟩
  | cons a as ih =>
    by_cases ha : p a = true
    · obtain ⟨t, ht⟩ := ih
      refine ⟨a :: t, ?_⟩
      rw [List.dropWhile_cons, if_pos ha, List.cons_append]
      exact congrArg (a :: ·) ht
    · exact ⟨[], by rw [List.dropWhile_cons, if_neg ha, List.nil_append]⟩

theorem pyStrip_dropWhile (l : List Char) :
    (pyStrip l).dropWhile isPySpace = pyStrip l := by
  obtain ⟨t, ht⟩ := dropWhile_eq_append isPySpace (l.dropWhile isPySpace).reverse
  have hrev : l.dropWhile isPySpace = pyStrip l ++ t.reverse := by
    have h2 := congrArg List.reverse ht
    rw [List.reverse_reverse, List.reverse_append] at h2
    exact h2
  cases hS : pyStrip l with
  | nil => rfl
  | cons c cs =>
    have hA : l.dropWhile isPySpace = c :: (cs ++ t.reverse) := by
      rw [hrev, hS, List.cons_append]
    have hc : isPySpace c = false := dropWhile_head_false isPySpace l c _ hA
    rw [List.dropWhile_cons, if_neg (by simp [hc])]

theorem pyStrip_idem (l : List Char) : pyStrip (pyStrip l) = pyStrip l := by
  have h2 : (pyStrip l).reverse = (l.dropWhile isPySpace).reverse.dropWhile isPySpace := by
    show ((l.dropWhile isPySpace).reverse.dropWhile isPySpace).reverse.reverse = _
    rw [List.reverse_reverse]
  calc pyStrip (pyStrip l)
      = (((pyStrip l).dropWhile isPySpace).reverse.dropWhile isPySpace).reverse := rfl
    _ = ((pyStrip l).reverse.dropWhile isPySpace).reverse := by rw [pyStrip_dropWhile]
    _ = (((l.dropWhile isPySpace).reverse.dropWhile isPySpace).dropWhile isPySpace).reverse := by
        rw [h2]
    _ = ((l.dropWhile isPySpace).reverse.dropWhile isPySpace).reverse := by
        rw [dropWhile_self_idem]
    _ = pyStrip l := rfl

theorem lowerL_idem (l : List Char) : lowerL (lowerL l) = lowerL l := by
  unfold lowerL
  rw [List.map_map]
  have h : lcChar ∘ lcChar = lcChar := funext lcChar_idem
  rw [h]

theorem dropWhile_lowerL (l : List Char) :
    (lowerL l).dropWhile isPySpace = lowerL (l.dropWhile isPySpace) := by
  unfold lowerL
  rw [List.dropWhile_map]
  have h : isPySpace ∘ lcChar = isPySpace := funext isPySpace_lcChar
  rw [h]

theorem lowerL_reverse (l : List Char) : lowerL l.reverse = (lowerL l).reverse :=
  List.map_reverse lcChar l

theorem lowerL_pyStrip (l : List Char) : lowerL (pyStrip l) = pyStrip (lowerL l) := by
  have key : pyStrip (lowerL l) = lowerL (pyStrip l) := calc pyStrip (lowerL l)
      = (((lowerL l).dropWhile isPySpace).reverse.dropWhile isPySpace).reverse := rfl
    _ = ((lowerL (l.dropWhile isPySpace)).reverse.dropWhile isPySpace).reverse := by
        rw [dropWhile_lowerL]
    _ = ((lowerL (l.dropWhile isPySpace).reverse).dropWhile isPySpace).reverse := by
        rw [lowerL_reverse]
    _ = (lowerL ((l.dropWhile isPySpace).reverse.dropWhile isPySpace)).reverse := by
        rw [dropWhile_lowerL]
    _ = lowerL ((l.dropWhile isPySpace).reverse.dropWhile isPySpace).reverse := by
        rw [lowerL_reverse]
    _ = lowerL (pyStrip l) := rfl
  exact key.symm

theorem norm_idem (l : List Char) :
    pyStrip (lowerL (pyStrip (lowerL l))) = pyStrip (lowerL l) := by
  rw [lowerL_pyStrip, lowerL_idem, pyStrip_idem]

theorem norm_lowerL_twice (l : List Char) :
    pyStrip (lowerL (lowerL l)) = pyStrip (lowerL l) := by
  rw [lowerL_idem]

theorem isSubstr_nil (l : List Char) : isSubstr [] l = true := by
  cases l <;> rfl

theorem or_regroup (a b c d : Bool) : (a || c || b || d) = ((a || b) || (c || d)) := by
  cases a <;> cases b <;> cases c <;> cases d <;> rfl

theorem splitGo_ne_nil (sep : List Char) :
    ∀ (f : Nat) (l acc : List Char), splitGo sep f l acc ≠ [] := by
  intro f
  induction f with
  | zero => intro l acc; simp [splitGo]
  | succ f ih =>
    intro l acc
    cases l with
    | nil => simp [splitGo]
    | cons c cs =>
      show splitGo sep (f + 1) (c :: cs) acc ≠ []
      by_cases h : isPrefixL sep (c :: cs) = true
      · simp only [splitGo, if_pos h]
        exact List.cons_ne_nil _ _
      · simp only [splitGo, if_neg h]
        exact ih cs (c :: acc)

theorem splitGo_two_le (sep : List Char) (hsep : sep ≠ []) :
    ∀ (f : Nat) (l acc : List Char), l.length < f → isSubstr sep l = true →
      2 ≤ (splitGo sep f l acc).length := by
  intro f
  induction f with
  | zero => intro l acc h; omega
  | succ f ih =>
    intro l acc hlen hsub
    cases l with
    | nil =>
      exfalso
      cases sep with
      | nil => exact hsep rfl
      | cons s ss => simp [isSubstr, List.isEmpty] at hsub
    | cons c cs =>
      by_cases h : isPrefixL sep (c :: cs) = true
      · simp only [splitGo, if_pos h, List.length_cons]
        have hne := splitGo_ne_nil sep f (List.drop (sep.length - 1) cs) []
        have hpos : 0 < (splitGo sep f (List.drop (sep.length - 1) cs) []).length :=
          List.length_pos.mpr hne
        omega
      · simp only [splitGo, if_neg h]
        have hsub2 : isSubstr sep cs = true := by
          rw [isSubstr] at hsub
          cases (Bool.or_eq_true _ _).mp hsub with
          | inl ha => exact absurd ha h
          | inr hb => exact hb
        exact ih cs (c :: acc) (by simpa using Nat.lt_of_succ_lt_succ hlen) hsub2

theorem pySplit_two_le (sep l : List Char) (hsep : sep ≠ [])
    (h : isSubstr sep l = true) : 2 ≤ (pySplit sep l).length :=
  splitGo_two_le sep hsep (l.length + 1) l [] (Nat.lt_succ_self _) h

/-! The claims. -/

/-- C1, amended: for every multi-league input text the classifier collects
exactly the LeagueIds of the fixed set that occur as substrings of the
cleaned lower-cased text, but in the declared scan order of the set
(nba, nfl, nhl, ncaab, ncaaf), not in first-mention order; in particular
both example queries yield leagues = [nba, nfl]. -/
theorem c1_league_scan_order (q : String) :
    (parse_multi_league_query q).leagues =
      APISkeys.filter (fun lg => isSubstr lg.data (multiClean q.data)) ∧
    parse_multi_league_query "nba, nfl score today" =
      { leagues := ["nba", "nfl"], date := DateR.today } ∧
    parse_multi_league_query "nfl, nba score today" =
      { leagues := ["nba", "nfl"], date := DateR.today } :=
  ⟨rfl, by decide, by decide⟩

/-- C1 counterexample: on "nfl, nba score today" the classifier returns
leagues = [nba, nfl], not the first-mention order [nfl, nba] the claim
requires. -/
theorem c1_mention_order_refuted :
    parse_multi_league_query "nfl, nba score today" =
      { leagues := ["nba", "nfl"], date := DateR.today } ∧
    (["nba", "nfl"] : List String) ≠ ["nfl", "nba"] :=
  ⟨by decide, by decide⟩

/-- C4, amended: the Team Matcher accepts a fragment and a candidate iff
the lower-cased, trimmed fragment occurs as a substring of the lower-cased
candidate (fragment-in-candidate only), or the SequenceMatcher ratio of the
pair, after lower-casing and trimming both, strictly exceeds 0.6; the four
examples of the claim behave as stated. -/
theorem c4_accepts_rule (f c : String) :
    accepts f c = specAcceptsAmended f c ∧
    accepts "lakers" "Los Angeles Lakers" = true ∧
    accepts "celtic" "Boston Celtics" = true ∧
    accepts "laker" "Lakers" = true ∧
    accepts "knicks" "Boston Celtics" = false := by
  refine ⟨?_, by decide, by decide, by decide, by decide⟩
  unfold accepts acceptsFrag fuzzyGt specAcceptsAmended
  rw [norm_idem, norm_lowerL_twice]

/-- C4 counterexample: for fragment "a " (trailing blank) and candidate
"zza" the code accepts — the stripped fragment "a" is a substring — while
the claim's rule rejects: the unstripped lower-cased fragment "a " is not a
substring of "zza", and the ratio of "a" and "zza" is 0.5. -/
theorem c4_untrimmed_substring_refuted :
    accepts "a " "zza" = true ∧ specAccepts "a " "zza" = false :=
  ⟨by decide, by decide⟩

/-- C5, amended: for every one-shot text in which the week regex finds a
nonzero week number w, parse_query extracts week = w together with the
first league of the fixed set occurring as a substring, and the week takes
precedence over any date token in the fetch for nfl and ncaaf; for week 0
the date is used instead (see C10). -/
theorem c5_week_query (q : String) (w : Nat)
    (hw : weekSearch (pyStrip (lowerL q.data)) = some w) (h0 : w ≠ 0) :
    (parse_query q).week = some w ∧
    (parse_query q).league =
      APISkeys.find? (fun lg => isSubstr lg.data (pyStrip (lowerL q.data))) ∧
    (∀ d, fetchParams "nfl" (some w) d = FetchParams.byWeek w ∧
      fetchParams "ncaaf" (some w) d = FetchParams.byWeek w) ∧
    parse_query "nfl score week 5" =
      { league := some "nfl", week := some 5, date := none } ∧
    parse_query "nfl score week 5 today" =
      { league := some "nfl", week := some 5, date := some DateR.today } ∧
    fetchParams "nfl" (some 5) (some DateR.today) = FetchParams.byWeek 5 := by
  refine ⟨?_, rfl, ?_, by decide, by decide, by decide⟩
  · show weekSearch (pyStrip (lowerL q.data)) = some w
    exact hw
  · intro d
    have hT : optNatTruthy (some w) = true := by simp [optNatTruthy, h0]
    constructor
    · unfold fetchParams
      rw [if_pos ⟨hT, Or.inl rfl⟩]
      rfl
    · unfold fetchParams
      rw [if_pos ⟨hT, Or.inr rfl⟩]
      rfl

/-- Witness for C5 at the concrete query "nfl score week 5". -/
theorem c5_week_query_witness :
    parse_query "nfl score week 5" =
      { league := some "nfl", week := some 5, date := none } ∧
    parse_query "nfl score week 5 today" =
      { league := some "nfl", week := some 5, date := some DateR.today } ∧
    fetchParams "nfl" (some 5) (some DateR.today) = FetchParams.byWeek 5 := by
  have h := c5_week_query "nfl score week 5" 5 (by decide) (by decide)
  exact ⟨h.2.2.2.1, h.2.2.2.2.1, h.2.2.2.2.2⟩

/-- C5 counterexample: on "nfl score week 0 today" the parser extracts
week 0, which is falsy, so the fetch for nfl is date-scoped, not
week-scoped — the week does not take precedence. -/
theorem c5_week_zero_refuted :
    parse_query "nfl score week 0 today" =
      { league := some "nfl", week := some 0, date := some DateR.today } ∧
    fetchParams "nfl" (some 0) (some DateR.today) = FetchParams.byDate DateR.today ∧
    FetchParams.byDate DateR.today ≠ FetchParams.byWeek 0 :=
  ⟨by decide, by decide, by decide⟩

/-- C7: when the only date-like content is a 6-digit run that is not a
valid MMDDYY calendar date, date resolution discards the match and ends at
the default of the current date in both parse_query (with no week token)
and parse_team_query, rather than failing. -/
theorem c7_invalid_mmddyy_default (q : String) (ds : List Char)
    (h1 : isSubstr "today".data (pyStrip (lowerL q.data)) = false)
    (h2 : isSubstr "yesterday".data (pyStrip (lowerL q.data)) = false)
    (h3 : isSubstr "tomorrow".data (pyStrip (lowerL q.data)) = false)
    (h4 : firstRun6 (pyStrip (lowerL q.data)) = some ds)
    (h5 : validMMDDYY ds = false)
    (h6 : isoSearch (pyStrip (lowerL q.data)) = none)
    (h7 : weekSearch (pyStrip (lowerL q.data)) = none) :
    (parse_query q).date = some DateR.today ∧
    (parse_team_query q).date = DateR.today ∧
    (parse_query q).week = none := by
  have hqd : queryDate (pyStrip (lowerL q.data)) = none := by
    unfold queryDate isoDate
    rw [h1, h2, h3, h4, h6]
    simp [h5]
  have hts : (teamDateStrip (pyStrip (lowerL q.data))).1 = none := by
    unfold teamDateStrip
    rw [h1, h2, h3, h4]
    simp [h5]
  refine ⟨?_, ?_, ?_⟩
  · show (if (queryDate (pyStrip (lowerL q.data))).isNone &&
        !optNatTruthy (weekSearch (pyStrip (lowerL q.data))) then some DateR.today
      else queryDate (pyStrip (lowerL q.data))) = some DateR.today
    rw [hqd, h7]
    rfl
  · have hdate : (parse_team_query q).date = teamDate q := by
      unfold parse_team_query teamSplit
      dsimp only
      split
      · split <;> rfl
      · split
        · split <;> rfl
        · rfl
    rw [hdate]
    unfold teamDate
    rw [hts]
    rfl
  · exact h7

/-- Witness for C7 at "nba score 023199" (February 31st does not exist). -/
theorem c7_invalid_mmddyy_default_witness :
    (parse_query "nba score 023199").date = some DateR.today ∧
    (parse_team_query "nba score 023199").date = DateR.today ∧
    (parse_query "nba score 023199").week = none :=
  c7_invalid_mmddyy_default "nba score 023199" "023199".data (by decide) (by decide)
    (by decide) (by decide) (by decide) (by decide) (by decide)

/-- C8: persisting a non-empty sequence to a fresh destination writes one
header row followed by the data rows in input order; persisting the same
sequence again appends the same rows after the existing ones with the
header written only once and nothing deduplicated; persisting an empty
sequence leaves any file state unchanged. -/
theorem c8_csv_append (games : List Game) (h : games ≠ []) :
    save_to_csv games none = some (csvHeader :: games.map gameRow) ∧
    save_to_csv games (save_to_csv games none) =
      some (csvHeader :: (games.map gameRow ++ games.map gameRow)) ∧
    (games.map gameRow).length = games.length ∧
    (∀ file, save_to_csv [] file = file) := by
  have hE : games.isEmpty = false := by
    cases games with
    | nil => exact absurd rfl h
    | cons g gs => rfl
  have h1 : save_to_csv games none = some (csvHeader :: games.map gameRow) := by
    unfold save_to_csv
    rw [hE]
    rfl
  refine ⟨h1, ?_, List.length_map _ _, fun file => rfl⟩
  rw [h1]
  unfold save_to_csv
  rw [hE]
  show some ((csvHeader :: games.map gameRow) ++ games.map gameRow) = _
  rw [List.cons_append]

/-- Witness for C8 with a one-record sequence. -/
theorem c8_csv_append_witness :
    save_to_csv [gameW] none = some (csvHeader :: [gameW].map gameRow) ∧
    save_to_csv [gameW] (save_to_csv [gameW] none) =
      some (csvHeader :: ([gameW].map gameRow ++ [gameW].map gameRow)) := by
  have h := c8_csv_append [gameW] (by decide)
  exact ⟨h.1, h.2.1⟩

/-- C10: on a one-shot text whose week regex yields 0 and which has no date
token, parse_query returns week = 0 yet defaults the date to the current
date, and fetch_games with week 0 issues a date-scoped query even for nfl
and ncaaf — exactly as if no week had been mentioned. -/
theorem c10_week_zero_date_scoped (q : String)
    (hw : weekSearch (pyStrip (lowerL q.data)) = some 0)
    (h1 : isSubstr "today".data (pyStrip (lowerL q.data)) = false)
    (h2 : isSubstr "yesterday".data (pyStrip (lowerL q.data)) = false)
    (h3 : isSubstr "tomorrow".data (pyStrip (lowerL q.data)) = false)
    (h4 : firstRun6 (pyStrip (lowerL q.data)) = none)
    (h5 : isoSearch (pyStrip (lowerL q.data)) = none) :
    (parse_query q).week = some 0 ∧
    (parse_query q).date = some DateR.today ∧
    (∀ lg d, fetchParams lg (some 0) d = fetchParams lg none d) ∧
    (∀ d, fetchParams "nfl" (some 0) (some d) = FetchParams.byDate d ∧
      fetchParams "ncaaf" (some 0) (some d) = FetchParams.byDate d) ∧
    fetchParams "nfl" (some 0) none = FetchParams.byToday := by
  have hqd : queryDate (pyStrip (lowerL q.data)) = none := by
    unfold queryDate isoDate
    rw [h1, h2, h3, h4, h5]
    rfl
  have hA : ∀ lg : String, ¬(optNatTruthy (some 0) = true ∧ (lg = "nfl" ∨ lg = "ncaaf")) := by
    intro lg hc
    simp [optNatTruthy] at hc
  have hB : ∀ lg : String, ¬(optNatTruthy none = true ∧ (lg = "nfl" ∨ lg = "ncaaf")) := by
    intro lg hc
    simp [optNatTruthy] at hc
  refine ⟨hw, ?_, ?_, ?_, ?_⟩
  · show (if (queryDate (pyStrip (lowerL q.data))).isNone &&
        !optNatTruthy (weekSearch (pyStrip (lowerL q.data))) then some DateR.today
      else queryDate (pyStrip (lowerL q.data))) = some DateR.today
    rw [hqd, hw]
    rfl
  · intro lg d
    unfold fetchParams
    rw [if_neg (hA lg), if_neg (hB lg)]
  · intro d
    constructor
    · unfold fetchParams
      rw [if_neg (hA "nfl")]
    · unfold fetchParams
      rw [if_neg (hA "ncaaf")]
  · unfold fetchParams
    rw [if_neg (hA "nfl")]

/-- Witness for C10 at the concrete query "nfl score week 0". -/
theorem c10_week_zero_date_scoped_witness :
    (parse_query "nfl score week 0").week = some 0 ∧
    (parse_query "nfl score week 0").date = some DateR.today ∧
    fetchParams "nfl" (some 0) none = FetchParams.byToday := by
  have h := c10_week_zero_date_scoped "nfl score week 0" (by decide) (by decide)
    (by decide) (by decide) (by decide) (by decide)
  exact ⟨h.1, h.2.1, h.2.2.2.2⟩

/-- C2, amended: for every text whose date- and score-stripped form
contains " vs " — or, failing that, " v " — the parser splits that form on
every occurrence of the chosen separator; team1 is the first field trimmed
and team2 the second field trimmed — the text between the first and second
occurrence, not everything right of the first separator; the example
queries behave as stated for both separators. -/
theorem c2_team_split (q : String) :
    (isSubstr " vs ".data (teamClean q) = true →
      ∃ t1 t2 rest, pySplit " vs ".data (teamClean q) = t1 :: t2 :: rest ∧
        parse_team_query q =
          { team1 := ⟨pyStrip t1⟩, team2 := some ⟨pyStrip t2⟩, date := teamDate q }) ∧
    (isSubstr " vs ".data (teamClean q) = false →
      isSubstr " v ".data (teamClean q) = true →
      ∃ t1 t2 rest, pySplit " v ".data (teamClean q) = t1 :: t2 :: rest ∧
        parse_team_query q =
          { team1 := ⟨pyStrip t1⟩, team2 := some ⟨pyStrip t2⟩, date := teamDate q }) ∧
    parse_team_query "lakers vs celtics score yesterday" =
      { team1 := "lakers", team2 := some "celtics", date := DateR.yesterday } ∧
    parse_team_query "a v b v c" =
      { team1 := "a", team2 := some "b", date := DateR.today } := by
  refine ⟨?_, ?_, by decide, by decide⟩
  · intro h
    have h2 := pySplit_two_le " vs ".data (teamClean q) (by decide) h
    cases e : pySplit " vs ".data (teamClean q) with
    | nil => rw [e] at h2; simp at h2
    | cons t1 rest =>
      cases rest with
      | nil => rw [e] at h2; simp at h2
      | cons t2 rest2 =>
        refine ⟨t1, t2, rest2, rfl, ?_⟩
        unfold parse_team_query teamSplit
        dsimp only
        rw [if_pos h, e]
  · intro hno hv
    have h2 := pySplit_two_le " v ".data (teamClean q) (by decide) hv
    cases e : pySplit " v ".data (teamClean q) with
    | nil => rw [e] at h2; simp at h2
    | cons t1 rest =>
      cases rest with
      | nil => rw [e] at h2; simp at h2
      | cons t2 rest2 =>
        refine ⟨t1, t2, rest2, rfl, ?_⟩
        unfold parse_team_query teamSplit
        dsimp only
        rw [if_neg (by rw [hno]; exact Bool.false_ne_true), if_pos hv, e]

/-- Witness for C2: the " vs " case at "lakers vs celtics score yesterday"
and the " v " fallback at "a v b v c". -/
theorem c2_team_split_witness :
    (∃ t1 t2 rest,
      pySplit " vs ".data (teamClean "lakers vs celtics score yesterday") =
        t1 :: t2 :: rest ∧
      parse_team_query "lakers vs celtics score yesterday" =
        { team1 := ⟨pyStrip t1⟩, team2 := some ⟨pyStrip t2⟩,
          date := teamDate "lakers vs celtics score yesterday" }) ∧
    (∃ t1 t2 rest, pySplit " v ".data (teamClean "a v b v c") = t1 :: t2 :: rest ∧
      parse_team_query "a v b v c" =
        { team1 := ⟨pyStrip t1⟩, team2 := some ⟨pyStrip t2⟩, date := teamDate "a v b v c" }) :=
  ⟨(c2_team_split "lakers vs celtics score yesterday").1 (by decide),
   (c2_team_split "a v b v c").2.1 (by decide) (by decide)⟩

/-- C2 counterexample: on "a vs b vs c" the parser returns team2 = "b" (the
field between the first and second separator), not "b vs c" (everything
right of the first separator) as the claim states. -/
theorem c2_right_of_first_sep_refuted :
    parse_team_query "a vs b vs c" =
      { team1 := "a", team2 := some "b", date := DateR.today } ∧
    ("b" : String) ≠ "b vs c" :=
  ⟨by decide, by decide⟩

/-- C3: find_team_game returns exactly the records matched by the claim's
predicate — team1 accepts home or away, and a present team2 independently
accepts home or away of the same record — as a filter of the input list,
hence a subsequence in the aggregator's original order; and it is empty
whenever no record's sides satisfy team1's acceptance rule. -/
theorem c3_find_team_game_filter (games : List Game) (team1 : String) (team2 : Option String) :
    find_team_game games team1 team2 = games.filter (claimPred team1 team2) ∧
    List.Sublist (find_team_game games team1 team2) games ∧
    ((∀ g ∈ games, (accepts team1 g.home || accepts team1 g.away) = false) →
      find_team_game games team1 team2 = []) := by
  have hpred : ∀ g : Game,
      gamePred (pyStrip (lowerL team1.data))
        (match team2 with
         | some s => if s.data.isEmpty then none else some (pyStrip (lowerL s.data))
         | none => none) g = claimPred team1 team2 g := by
    intro g
    unfold gamePred claimPred accepts acceptsFrag
    dsimp only
    cases team2 with
    | none => rw [or_regroup]
    | some s =>
      dsimp only
      by_cases hs : s.data.isEmpty = true
      · have hd : s.data = [] := by
          cases hsd : s.data with
          | nil => rfl
          | cons a as => rw [hsd] at hs; simp [List.isEmpty] at hs
        rw [if_pos hs]
        dsimp only
        have ht : (isSubstr (pyStrip (lowerL s.data)) (lowerL g.home.data) ||
            fuzzyGt (pyStrip (lowerL s.data)) (lowerL g.home.data)) = true := by
          rw [hd]
          have hz : pyStrip (lowerL ([] : List Char)) = [] := rfl
          rw [hz, isSubstr_nil]
          rfl
        rw [ht, Bool.true_or, or_regroup]
      · rw [if_neg hs]
        dsimp only
        rw [or_regroup, or_regroup]
  have hfilter : find_team_game games team1 team2 = games.filter (claimPred team1 team2) := by
    unfold find_team_game
    dsimp only
    exact List.filter_congr (fun g _ => hpred g)
  refine ⟨hfilter, ?_, ?_⟩
  · rw [hfilter]
    exact List.filter_sublist games
  · intro hnone
    rw [hfilter]
    apply List.filter_eq_nil_iff.mpr
    intro g hg
    unfold claimPred
    rw [hnone g hg]
    simp

/-- Witness for C3: a record matched by team1 "lakers" with a present
team2 "celtics", and an empty result for team1 "knicks". -/
theorem c3_find_team_game_filter_witness :
    find_team_game [gameW] "knicks" none = [] ∧
    find_team_game [gameW] "lakers" (some "celtics") = [gameW] := by
  have h := c3_find_team_game_filter [gameW] "knicks" none
  have h2 := c3_find_team_game_filter [gameW] "lakers" (some "celtics")
  constructor
  · exact h.2.2 (by decide)
  · rw [h2.1]
    decide

/-- C9: parse_game discards the single record — returning nothing — when
the event's first competition is missing or does not have exactly two
competitors; otherwise it returns a record whose status is Final for
STATUS_FINAL, Live for STATUS_IN_PROGRESS and Scheduled for anything else,
with score string "awayScore-homeScore" for Final and Live and "-" for
Scheduled. -/
theorem c9_parse_game_discard (e : Event) (lg : String) :
    (e.competitions.head? = none → parse_game e lg = none) ∧
    (∀ comp, e.competitions.head? = some comp → comp.competitors.length ≠ 2 →
      parse_game e lg = none) ∧
    (∀ comp, e.competitions.head? = some comp → comp.competitors.length = 2 →
      ∃ g, parse_game e lg = some g ∧
        g.status = statusFromName ((e.statusName).getD "Unknown") ∧
        (e.statusName = some "STATUS_FINAL" → g.status = "Final") ∧
        (e.statusName = some "STATUS_IN_PROGRESS" → g.status = "Live") ∧
        (e.statusName ≠ some "STATUS_FINAL" → e.statusName ≠ some "STATUS_IN_PROGRESS" →
          g.status = "Scheduled") ∧
        ((g.status = "Final" ∨ g.status = "Live") →
          g.score = (collectTeams comp.competitors).2.2.2 ++ "-" ++
            (collectTeams comp.competitors).2.2.1) ∧
        (g.status = "Scheduled" → g.score = "-")) := by
  refine ⟨?_, ?_, ?_⟩
  · intro h
    unfold parse_game
    rw [h]
  · intro comp hc hlen
    unfold parse_game
    rw [hc]
    dsimp only
    rw [if_neg hlen]
  · intro comp hc hlen
    have hpg : parse_game e lg = some
        { league := ⟨upperL lg.data⟩
          home := (collectTeams comp.competitors).1
          away := (collectTeams comp.competitors).2.1
          score :=
            if statusFromName ((e.statusName).getD "Unknown") = "Final" then
              (collectTeams comp.competitors).2.2.2 ++ "-" ++ (collectTeams comp.competitors).2.2.1
            else if statusFromName ((e.statusName).getD "Unknown") = "Live" then
              (collectTeams comp.competitors).2.2.2 ++ "-" ++ (collectTeams comp.competitors).2.2.1
            else "-"
          status := statusFromName ((e.statusName).getD "Unknown")
          date := takeStr 10 ((e.date).getD "") } := by
      unfold parse_game
      rw [hc]
      dsimp only
      rw [if_pos hlen]
    refine ⟨_, hpg, rfl, ?_, ?_, ?_, ?_, ?_⟩
    · intro h
      show statusFromName ((e.statusName).getD "Unknown") = "Final"
      rw [h]
      rfl
    · intro h
      show statusFromName ((e.statusName).getD "Unknown") = "Live"
      rw [h]
      rfl
    · intro hf hp
      show statusFromName ((e.statusName).getD "Unknown") = "Scheduled"
      cases hsn : e.statusName with
      | none => rfl
      | some n =>
        rw [hsn] at hf hp
        have hnf : n ≠ "STATUS_FINAL" := fun hn => hf (by rw [hn])
        have hnp : n ≠ "STATUS_IN_PROGRESS" := fun hn => hp (by rw [hn])
        show statusFromName n = "Scheduled"
        unfold statusFromName
        rw [if_neg hnf, if_neg hnp]
    · intro hFL
      have hFL2 : statusFromName ((e.statusName).getD "Unknown") = "Final" ∨
          statusFromName ((e.statusName).getD "Unknown") = "Live" := hFL
      show (if statusFromName ((e.statusName).getD "Unknown") = "Final" then
          (collectTeams comp.competitors).2.2.2 ++ "-" ++ (collectTeams comp.competitors).2.2.1
        else if statusFromName ((e.statusName).getD "Unknown") = "Live" then
          (collectTeams comp.competitors).2.2.2 ++ "-" ++ (collectTeams comp.competitors).2.2.1
        else "-") = _
      cases hFL2 with
      | inl hF =>
        rw [if_pos hF]
      | inr hL =>
        have hne : statusFromName ((e.statusName).getD "Unknown") ≠ "Final" := by
          rw [hL]
          decide
        rw [if_neg hne, if_pos hL]
    · intro hS
      have hS2 : statusFromName ((e.statusName).getD "Unknown") = "Scheduled" := hS
      show (if statusFromName ((e.statusName).getD "Unknown") = "Final" then
          (collectTeams comp.competitors).2.2.2 ++ "-" ++ (collectTeams comp.competitors).2.2.1
        else if statusFromName ((e.statusName).getD "Unknown") = "Live" then
          (collectTeams comp.competitors).2.2.2 ++ "-" ++ (collectTeams comp.competitors).2.2.1
        else "-") = "-"
      have h1 : statusFromName ((e.statusName).getD "Unknown") ≠ "Final" := by
        rw [hS2]
        decide
      have h2 : statusFromName ((e.statusName).getD "Unknown") ≠ "Live" := by
        rw [hS2]
        decide
      rw [if_neg h1, if_neg h2]

/-- Witness for C9 at a two-competitor STATUS_FINAL event. -/
theorem c9_parse_game_discard_witness :
    ∃ g, parse_game eFinal "nba" = some g ∧
      g.status = statusFromName ((eFinal.statusName).getD "Unknown") ∧
      (eFinal.statusName = some "STATUS_FINAL" → g.status = "Final") ∧
      (eFinal.statusName = some "STATUS_IN_PROGRESS" → g.status = "Live") ∧
      (eFinal.statusName ≠ some "STATUS_FINAL" → eFinal.statusName ≠ some "STATUS_IN_PROGRESS" →
        g.status = "Scheduled") ∧
      ((g.status = "Final" ∨ g.status = "Live") →
        g.score = (collectTeams compFinal.competitors).2.2.2 ++ "-" ++
          (collectTeams compFinal.competitors).2.2.1) ∧
      (g.status = "Scheduled" → g.score = "-") :=
  (c9_parse_game_discard eFinal "nba").2.2 compFinal rfl (by decide)

set_option maxHeartbeats 2000000 in
/-- C6, amended: the two parsing entry points differ in their default.  For
every input that is nonempty after stripping, is not one of the control
commands quit/exit/q/help, contains no "all sports"/"all score" shortcut,
no team separator, and no league-name substring either directly or after
the occurrences of "score" are removed, the interactive mode rejects the
input as an unknown command; the one-shot parse_query still produces an
intent with league absent — interpreted as all leagues — and, when no date
or week token is present, a date defaulting to the current date. -/
theorem c6_two_entry_points (s : String)
    (h0 : pyStrip s.data ≠ [])
    (hq1 : pyStrip (lowerL s.data) ≠ "quit".data)
    (hq2 : pyStrip (lowerL s.data) ≠ "exit".data)
    (hq3 : pyStrip (lowerL s.data) ≠ "q".data)
    (hq4 : pyStrip (lowerL s.data) ≠ "help".data)
    (ha1 : isSubstr "all sports".data (pyStrip (lowerL s.data)) = false)
    (ha2 : isSubstr "all score".data (pyStrip (lowerL s.data)) = false)
    (hv1 : isSubstr " vs ".data (pyStrip (lowerL s.data)) = false)
    (hv2 : isSubstr " v ".data (pyStrip (lowerL s.data)) = false)
    (hlg : ∀ lg ∈ APISkeys, isSubstr lg.data (pyStrip (lowerL s.data)) = false)
    (hlg2 : ∀ lg ∈ APISkeys, isSubstr lg.data (multiClean s.data) = false) :
    interactiveStep s = IAction.unknown ∧
    (parse_query s).league = none ∧
    fetchLeagues (parse_query s).league = APISkeys ∧
    ((isSubstr "today".data (pyStrip (lowerL s.data)) = false ∧
      isSubstr "yesterday".data (pyStrip (lowerL s.data)) = false ∧
      isSubstr "tomorrow".data (pyStrip (lowerL s.data)) = false ∧
      firstRun6 (pyStrip (lowerL s.data)) = none ∧
      isoSearch (pyStrip (lowerL s.data)) = none ∧
      weekSearch (pyStrip (lowerL s.data)) = none) →
      (parse_query s).week = none ∧ (parse_query s).date = some DateR.today) := by
  have hcmd : lowerL (pyStrip s.data) = pyStrip (lowerL s.data) := lowerL_pyStrip s.data
  have hfind : APISkeys.find? (fun lg => isSubstr lg.data (pyStrip (lowerL s.data))) = none :=
    List.find?_eq_none.mpr (fun lg hm => by rw [hlg lg hm]; exact Bool.false_ne_true)
  refine ⟨?_, hfind, ?_, ?_⟩
  · have hne : ¬((pyStrip s.data).isEmpty = true) := by
      cases hd : pyStrip s.data with
      | nil => exact absurd hd h0
      | cons a as => simp [List.isEmpty]
    have hmc : multiClean (pyStrip s.data) = multiClean s.data := by
      unfold multiClean
      rw [lowerL_pyStrip, pyStrip_idem]
    have hleagues : (parse_multi_league_query ⟨pyStrip s.data⟩).leagues = [] := by
      show APISkeys.filter (fun lg => isSubstr lg.data (multiClean (pyStrip s.data))) = []
      apply List.filter_eq_nil_iff.mpr
      intro lg hm
      rw [hmc, hlg2 lg hm]
      exact Bool.false_ne_true
    unfold interactiveStep
    dsimp only
    rw [if_neg hne, hcmd]
    rw [if_neg (by
        intro hc
        cases hc with
        | inl h => exact hq1 h
        | inr h => cases h with
          | inl h => exact hq2 h
          | inr h => exact hq3 h)]
    rw [if_neg hq4]
    rw [ha1, ha2]
    rw [if_neg (by simp)]
    rw [hv1, hv2]
    rw [if_neg (by simp)]
    rw [hleagues]
    rfl
  · show fetchLeagues (APISkeys.find? (fun lg => isSubstr lg.data (pyStrip (lowerL s.data)))) =
      APISkeys
    rw [hfind]
    rfl
  · intro ⟨d1, d2, d3, d4, d5, d6⟩
    have hqd : queryDate (pyStrip (lowerL s.data)) = none := by
      unfold queryDate isoDate
      rw [d1, d2, d3, d4, d5]
      rfl
    refine ⟨d6, ?_⟩
    show (if (queryDate (pyStrip (lowerL s.data))).isNone &&
        !optNatTruthy (weekSearch (pyStrip (lowerL s.data))) then some DateR.today
      else queryDate (pyStrip (lowerL s.data))) = some DateR.today
    rw [hqd, d6]
    rfl

/-- Witness for C6 at the input "hello there". -/
theorem c6_two_entry_points_witness :
    interactiveStep "hello there" = IAction.unknown ∧
    (parse_query "hello there").league = none ∧
    fetchLeagues (parse_query "hello there").league = APISkeys ∧
    (parse_query "hello there").week = none ∧
    (parse_query "hello there").date = some DateR.today := by
  have h := c6_two_entry_points "hello there" (by decide) (by decide) (by decide)
    (by decide) (by decide) (by decide) (by decide) (by decide) (by decide)
    (by decide) (by decide)
  have h2 := h.2.2.2 ⟨by decide, by decide, by decide, by decide, by decide, by decide⟩
  exact ⟨h.1, h.2.1, h.2.2.1, h2.1, h2.2⟩

/-- C6 counterexample: "quit" satisfies the claim's conditions yet exits
instead of being rejected as unknown, and "nscoreba" — no league substring
until "score" removal glues "nba" together — actually fetches the NBA. -/
theorem c6_unknown_refuted :
    interactiveStep "quit" = IAction.quitA ∧
    IAction.quitA ≠ IAction.unknown ∧
    interactiveStep "nscoreba" = IAction.multiQ { leagues := ["nba"], date := DateR.today } ∧
    IAction.multiQ { leagues := ["nba"], date := DateR.today } ≠ IAction.unknown :=
  ⟨by decide, by decide, by decide, by decide⟩

end ESPN
